import Mathlib

/-!
Verification of the pyxis semantic-analysis core against its specification.

The definitions below are a shallow embedding of the repository's Rust
sources.  `src/semantic_analysis/types.rs`, `src/semantic_analysis/function.rs`
and `src/backends/rust.rs` are embedded directly.  The layout-resolution
engine itself (`semantic_state.rs`, `type_definition.rs`, `type_registry.rs`)
is not among the provided sources — only its tests and the types it produces
are — so those parts are modelled from the specification, with each such
definition marked `Modelled from the spec:` in its doc comment, and checked
against the expected outputs recorded in
`src/semantic_analysis/tests/mod.rs`.
-/

set_option maxRecDepth 4000

namespace Pyxis

/-- Embeds `grammar::ItemPath`: an ordered sequence of name segments. -/
structure ItemPath where
  segments : List String
deriving DecidableEq, Repr

/-- `ItemPath`'s Display implementation joins segments with `::`. -/
def ItemPath.display (p : ItemPath) : String :=
  String.intercalate "::" p.segments

/-- Embeds `Visibility` from `types.rs`. -/
inductive Visibility where
  | Public
  | Private
deriving DecidableEq, Repr

/-- Embeds `CallingConvention` from `function.rs` (lines 25-34). -/
inductive CallingConvention where
  | C
  | Cdecl
  | Stdcall
  | Fastcall
  | Thiscall
  | Vectorcall
  | System
deriving DecidableEq, Repr

/-- Embeds `CallingConvention::as_str` (`function.rs` lines 36-46). -/
def CallingConvention.asStr : CallingConvention → String
  | .C => "C"
  | .Cdecl => "cdecl"
  | .Stdcall => "stdcall"
  | .Fastcall => "fastcall"
  | .Thiscall => "thiscall"
  | .Vectorcall => "vectorcall"
  | .System => "system"

/-- Embeds the `Display` impl for `CallingConvention` (`function.rs` lines
48-52), which writes exactly `self.as_str()`. -/
def CallingConvention.display (cc : CallingConvention) : String :=
  cc.asStr

/-- Embeds the `FromStr` impl for `CallingConvention` (`function.rs` lines
53-67); the `Err(())` outcome is represented by `none`. -/
def CallingConvention.fromStr : String → Option CallingConvention
  | "C" => some .C
  | "cdecl" => some .Cdecl
  | "stdcall" => some .Stdcall
  | "fastcall" => some .Fastcall
  | "thiscall" => some .Thiscall
  | "vectorcall" => some .Vectorcall
  | "system" => some .System
  | _ => none

/-- Stand-in for `grammar::Type`, the surface-syntax type expression.  The
embedded code never inspects it (it is carried opaquely by
`Type::Unresolved` and handed to the resolver), so it is represented by its
source text. -/
structure GrammarType where
  text : String
deriving DecidableEq, Repr

/-- Embeds `Type` from `types.rs` (lines 47-59). -/
inductive SType where
  | Unresolved : GrammarType → SType
  | Raw : ItemPath → SType
  | ConstPointer : SType → SType
  | MutPointer : SType → SType
  | Array : SType → Nat → SType
  | Function : CallingConvention → List (String × SType) → Option SType → SType
deriving Repr

/-- Embeds `Argument` from `function.rs` (lines 13-18). -/
inductive Argument where
  | ConstSelf
  | MutSelf
  | Field : String → SType → Argument
deriving Repr

/-- Embeds `Function` from `function.rs` (lines 69-77). -/
structure SFunction where
  visibility : Visibility
  name : String
  address : Option Nat
  arguments : List Argument
  return_type : Option SType
  calling_convention : CallingConvention
deriving Repr

/-- Embeds `Region` from the (absent) `type_definition.rs`, whose shape is
fixed by the spec (§3) and the tests: a named field or anonymous padding. -/
inductive Region where
  | field : Visibility → String → SType → Region
  | padding : Nat → Region
deriving Repr

/-- Embeds `TypeVftable`: the synthesized vftable companion information
attached to a type (pointer type of the vftable field plus the slot
functions). -/
structure TypeVftable where
  functions : List SFunction
  type_ : SType
deriving Repr

/-- Embeds `TypeDefinition` (re-exported by `types.rs`; shape per spec §3 and
the builders used in `tests/mod.rs`). -/
structure TypeDefinition where
  regions : List Region := []
  free_functions : List SFunction := []
  vftable : Option TypeVftable := none
  singleton : Option Nat := none
  copyable : Bool := false
  cloneable : Bool := false
  defaultable : Bool := false
deriving Repr

/-- Embeds `EnumDefinition` from `types.rs` (lines 163-172). -/
structure EnumDefinition where
  type_ : SType
  fields : List (String × Int) := []
  singleton : Option Nat := none
  copyable : Bool := false
  cloneable : Bool := false
  defaultable : Bool := false
  default_index : Option Nat := none
deriving Repr

/-- Embeds `ItemDefinitionInner` from `types.rs` (lines 214-218). -/
inductive ItemDefinitionInner where
  | TypeDef : TypeDefinition → ItemDefinitionInner
  | EnumDef : EnumDefinition → ItemDefinitionInner
deriving Repr

/-- Embeds `ItemDefinitionInner::defaultable` from `types.rs` (lines
229-235). -/
def ItemDefinitionInner.defaultable : ItemDefinitionInner → Bool
  | .TypeDef td => td.defaultable
  | .EnumDef ed => ed.defaultable && ed.default_index.isSome

/-- Embeds `ItemStateResolved` from `types.rs` (lines 256-261). -/
structure ItemStateResolved where
  size : Nat
  alignment : Nat
  inner : ItemDefinitionInner
deriving Repr

/-- Stand-in for `grammar::ItemDefinition`, the raw unprocessed declaration
held by an `Unresolved` item; carried opaquely. -/
structure GrammarItemDefinition where
  text : String
deriving DecidableEq, Repr

/-- Embeds `ItemState` from `types.rs` (lines 268-272). -/
inductive ItemState where
  | Unresolved : GrammarItemDefinition → ItemState
  | Resolved : ItemStateResolved → ItemState
deriving Repr

/-- Embeds `ItemCategory` from `types.rs` (lines 274-279). -/
inductive ItemCategory where
  | Defined
  | Predefined
  | Extern
deriving DecidableEq, Repr

/-- Embeds `ItemDefinition` from `types.rs` (lines 281-287). -/
structure ItemDefinition where
  visibility : Visibility
  path : ItemPath
  state : ItemState
  category : ItemCategory
deriving Repr

/-- Embeds `ItemDefinition::resolved` (`types.rs` lines 302-307). -/
def ItemDefinition.resolved (d : ItemDefinition) : Option ItemStateResolved :=
  match d.state with
  | .Resolved tsr => some tsr
  | _ => none

/-- Embeds `ItemDefinition::size` (`types.rs` lines 309-311). -/
def ItemDefinition.size (d : ItemDefinition) : Option Nat :=
  d.resolved.map (fun r => r.size)

/-- Embeds `ItemDefinition::alignment` (`types.rs` lines 313-315). -/
def ItemDefinition.alignment (d : ItemDefinition) : Option Nat :=
  d.resolved.map (fun r => r.alignment)

/-- Embeds `TypeRegistry` (shape per spec §3/§4.3: a table keyed by item
path, plus the configured native pointer size). -/
structure TypeRegistry where
  pointerSize : Nat
  items : List (ItemPath × ItemDefinition)

/-- Embeds `TypeRegistry::get(path)`. -/
def TypeRegistry.get (r : TypeRegistry) (p : ItemPath) : Option ItemDefinition :=
  (r.items.find? (fun kv => kv.1 == p)).map (fun kv => kv.2)

/-- Embeds `Type::size` from `types.rs` (lines 61-71). -/
def SType.size (t : SType) (r : TypeRegistry) : Option Nat :=
  match t with
  | .Unresolved _ => none
  | .Raw p => (r.get p).bind (fun item => item.size)
  | .ConstPointer _ => some r.pointerSize
  | .MutPointer _ => some r.pointerSize
  | .Array tr count => (tr.size r).map (fun s => s * count)
  | .Function _ _ _ => some r.pointerSize

/-- Embeds `Type::alignment` from `types.rs` (lines 72-81). -/
def SType.alignment (t : SType) (r : TypeRegistry) : Option Nat :=
  match t with
  | .Unresolved _ => none
  | .Raw p => (r.get p).bind (fun item => item.alignment)
  | .ConstPointer _ => some r.pointerSize
  | .MutPointer _ => some r.pointerSize
  | .Array tr _ => tr.alignment r
  | .Function _ _ _ => some r.pointerSize

/-- Embeds `grammar::Expr` as used by function attributes in
`function.rs::build`: integer and string literal arguments. -/
inductive GExpr where
  | IntLiteral : Int → GExpr
  | StringLiteral : String → GExpr
deriving DecidableEq, Repr

/-- Embeds grammar attributes as consumed by `function.rs::build`:
`attribute.function()` either yields an `(ident, exprs)` pair or nothing
(the `nonFunction` case, which `build` rejects). -/
inductive GAttribute where
  | function : String → List GExpr → GAttribute
  | nonFunction : GAttribute
deriving DecidableEq, Repr

/-- Embeds `grammar::Argument`. -/
inductive GArgument where
  | ConstSelf
  | MutSelf
  | Named : String → GrammarType → GArgument
deriving DecidableEq, Repr

/-- Embeds `grammar::Function`: the surface declaration consumed by
`function.rs::build`. -/
structure GFunction where
  visibility : Visibility
  name : String
  attributes : List GAttribute
  arguments : List GArgument
  return_type : Option GrammarType
deriving Repr

/-- Embeds the attribute loop of `function.rs::build` (lines 114-148):
walks the attribute list accumulating the optional address and optional
calling convention, failing on unsupported attributes, on a negative
`address` (the `try_into` to `usize`), and on an unparseable
`calling_convention` string. -/
def processAttrs (fname : String) :
    List GAttribute → Option Nat → Option CallingConvention →
    Except String (Option Nat × Option CallingConvention)
  | [], addr, cc => .ok (addr, cc)
  | a :: rest, addr, cc =>
    match a with
    | .nonFunction =>
      .error ("unsupported attribute for function `" ++ fname ++ "`")
    | .function ident exprs =>
      match ident, exprs with
      | "address", [.IntLiteral v] =>
        if v < 0 then
          .error ("failed to convert `address` attribute into usize for function `"
            ++ fname ++ "`")
        else
          processAttrs fname rest (some v.toNat) cc
      | "index", _ => processAttrs fname rest addr cc
      | "calling_convention", [.StringLiteral s] =>
        match CallingConvention.fromStr s with
        | some c => processAttrs fname rest addr (some c)
        | none =>
          .error ("invalid calling convention for function `" ++ fname ++ "`: " ++ s)
      | _, _ =>
        .error ("unsupported attribute for function `" ++ fname ++ "`")

/-- Embeds the argument-resolution map of `function.rs::build` (lines
150-169).  The registry-and-scope pair of the source is abstracted into the
`resolve` function, matching the interface of
`TypeRegistry::resolve_grammar_type` (spec §4.2: returns no resolution
rather than an error). -/
def buildArguments (resolve : GrammarType → Option SType) :
    List GArgument → Except String (List Argument)
  | [] => .ok []
  | a :: rest => do
    let first ← match a with
      | .ConstSelf => Except.ok Argument.ConstSelf
      | .MutSelf => Except.ok Argument.MutSelf
      | .Named n t =>
        match resolve t with
        | some ty => Except.ok (Argument.Field n ty)
        | none => Except.error ("failed to resolve type of field `" ++ n ++ "`")
    let others ← buildArguments resolve rest
    pure (first :: others)

/-- Whether any resolved argument is `ConstSelf` or `MutSelf`
(`function.rs` lines 180-182). -/
def hasSelfArgument (args : List Argument) : Bool :=
  args.any (fun a =>
    match a with
    | .ConstSelf => true
    | .MutSelf => true
    | .Field _ _ => false)

/-- The same check on grammar-level arguments; `build` maps argument
constructors one-to-one, so this coincides with `hasSelfArgument` on the
built list. -/
def gHasSelfArgument (args : List GArgument) : Bool :=
  args.any (fun a =>
    match a with
    | .ConstSelf => true
    | .MutSelf => true
    | .Named _ _ => false)

/-- Embeds `function.rs::build` (lines 109-198): processes attributes,
resolves arguments and return type, and determines the calling convention —
the explicit attribute wins, otherwise `Thiscall` when a self argument is
present and `System` otherwise. -/
def buildFunction (resolve : GrammarType → Option SType) (f : GFunction) :
    Except String SFunction := do
  let attrs ← processAttrs f.name f.attributes none none
  let args ← buildArguments resolve f.arguments
  let ret := f.return_type.bind (fun t => resolve t)
  let cc :=
    match attrs.2 with
    | some c => c
    | none => if hasSelfArgument args then .Thiscall else .System
  pure { visibility := f.visibility, name := f.name, address := attrs.1,
         arguments := args, return_type := ret, calling_convention := cc }

/-- Embeds the (single-variant) `Attribute` enum consumed by
`backends/rust.rs::build_function`. -/
inductive BackendAttribute where
  | Address : Nat → BackendAttribute
deriving DecidableEq, Repr

/-- Embeds the `FunctionGetter` enum local to
`backends/rust.rs::build_function` (lines 142-146). -/
inductive FunctionGetter where
  | Address : Nat → FunctionGetter
  | Vftable : FunctionGetter
deriving DecidableEq, Repr

/-- Rust `Debug` rendering of `Option<FunctionGetter>` as interpolated into
the "function getter already set" error. -/
def functionGetterDebug : Option FunctionGetter → String
  | none => "None"
  | some (.Address a) => "Some(Address(" ++ toString a ++ "))"
  | some .Vftable => "Some(Vftable)"

/-- Embeds the attribute loop of `backends/rust.rs::build_function` (lines
151-162): each `Address` attribute sets the getter, and a second one fails
with "function getter already set". -/
def functionGetterLoop :
    List BackendAttribute → Option FunctionGetter →
    Except String (Option FunctionGetter)
  | [], g => .ok g
  | .Address a :: rest, g =>
    match g with
    | some cur =>
      .error ("function getter already set: " ++ functionGetterDebug (some cur))
    | none => functionGetterLoop rest (some (.Address a))

/-- Embeds the getter-determination logic of
`backends/rust.rs::build_function` (lines 147-164): a vftable function gets
the vftable getter; otherwise the getter comes from the `address`
attributes, and its absence fails with "no function getter set". -/
def determineFunctionGetter (isVftable : Bool) (attrs : List BackendAttribute) :
    Except String FunctionGetter :=
  if isVftable then .ok .Vftable
  else
    match functionGetterLoop attrs none with
    | .error e => .error e
    | .ok none => .error "no function getter set"
    | .ok (some g) => .ok g

/-- Modelled from the spec: the vftable slot builder lives in the absent
`semantic_state.rs`/`type_definition.rs`.  A vftable function declaration as
seen by the slot-assignment algorithm of §4.6: the function already built by
`function.rs::build`, plus its optional explicit `index` attribute. -/
structure VFuncDecl where
  function : SFunction
  index : Option Nat
deriving Repr

/-- Modelled from the spec (§4.6): the synthesized placeholder for a vftable
slot left unfilled — a private virtual function named `_vfunc_<slot>` taking
only a `MutSelf` argument and returning nothing, with the instance-call
convention. -/
def makeVfunc (slot : Nat) : SFunction :=
  { visibility := .Private, name := "_vfunc_" ++ toString slot,
    address := none, arguments := [.MutSelf], return_type := none,
    calling_convention := .Thiscall }

/-- The `(slot, function)` pairs pinned by explicit `index` attributes. -/
def explicitAssignments (decls : List VFuncDecl) : List (Nat × SFunction) :=
  decls.filterMap (fun d => d.index.map (fun i => (i, d.function)))

/-- The slots claimed by explicit `index` attributes. -/
def explicitIndices (decls : List VFuncDecl) : List Nat :=
  (explicitAssignments decls).map Prod.fst

/-- One past the largest explicitly pinned slot (0 when no `index`
attribute occurs). -/
def maxExplicitEnd (decls : List VFuncDecl) : Nat :=
  (explicitIndices decls).foldr (fun i m => max (i + 1) m) 0

/-- The declared functions carrying no `index` attribute, in declaration
order. -/
def unindexedFunctions (decls : List VFuncDecl) : List SFunction :=
  (decls.filter (fun d => d.index.isNone)).map (fun d => d.function)

/-- Modelled from the spec (§4.6) and `tests/mod.rs`
(`can_generate_vftable`, `can_generate_vftable_with_indices`): the total
slot count of the synthesized vftable.  It covers every explicitly pinned
slot, every declared function, and — as the tests fix — the slot count
demanded by the vftable's `size` attribute when present. -/
def vftableSlotCount (decls : List VFuncDecl) (sizeAttr : Option Nat) : Nat :=
  max (sizeAttr.getD 0) (max (maxExplicitEnd decls) decls.length)

/-- The ascending list of slots below `total` not claimed by an explicit
`index` attribute. -/
def freeSlots (decls : List VFuncDecl) (total : Nat) : List Nat :=
  (List.range total).filter (fun i => !(explicitIndices decls).contains i)

/-- Modelled from the spec (§4.6): explicit `index` attributes pin their
slots, and unindexed functions fill the remaining slots left-to-right in
declaration order, skipping slots already claimed. -/
def slotAssignments (decls : List VFuncDecl) (sizeAttr : Option Nat) :
    List (Nat × SFunction) :=
  explicitAssignments decls
    ++ (freeSlots decls (vftableSlotCount decls sizeAttr)).zip
        (unindexedFunctions decls)

/-- Modelled from the spec (§4.6): the final vftable slot list — every slot
holds its assigned declared function, and every slot left unfilled holds the
synthesized `_vfunc_<slot>` placeholder. -/
def vftableFunctionList (decls : List VFuncDecl) (sizeAttr : Option Nat) :
    List SFunction :=
  (List.range (vftableSlotCount decls sizeAttr)).map (fun i =>
    match (slotAssignments decls sizeAttr).find? (fun a => a.1 == i) with
    | some a => a.2
    | none => makeVfunc i)

/-- Modelled from the spec (§4.6) and the expected vftable region lists in
`tests/mod.rs`: the region of the vftable companion type generated for one
slot function — a field of the function's visibility and name whose type is
a function pointer carrying the function's calling convention, a leading
`this` pointer standing for the self argument, and the remaining named
arguments and return type. -/
def regionOfVFunc (owner : ItemPath) (f : SFunction) : Region :=
  Region.field f.visibility f.name
    (SType.Function f.calling_convention
      (f.arguments.map (fun a =>
        match a with
        | .ConstSelf => ("this", SType.ConstPointer (SType.Raw owner))
        | .MutSelf => ("this", SType.MutPointer (SType.Raw owner))
        | .Field n t => (n, t)))
      f.return_type)

/-- The regions of the synthesized vftable companion type, one per slot. -/
def vftableRegions (owner : ItemPath) (decls : List VFuncDecl)
    (sizeAttr : Option Nat) : List Region :=
  (vftableFunctionList decls sizeAttr).map (regionOfVFunc owner)

/-- The calling convention of the function type stored in a region, when the
region is a function-pointer-typed field. -/
def regionTypeCC : Region → Option CallingConvention
  | .field _ _ (.Function cc _ _) => some cc
  | _ => none

/-- The two vftable functions of the test `can_generate_vftable_with_indices`
(`tests/mod.rs` lines 437-554): `test_function0` pinned to slot 2 and
`test_function1` pinned to slot 5, under a vftable `size(8)` attribute. -/
def vfTestFunction0 : SFunction :=
  { visibility := .Public, name := "test_function0", address := none,
    arguments := [.MutSelf,
      .Field "arg0" (SType.Raw ⟨["u32"]⟩),
      .Field "arg1" (SType.Raw ⟨["f32"]⟩)],
    return_type := some (SType.Raw ⟨["i32"]⟩),
    calling_convention := .Thiscall }

def vfTestFunction1 : SFunction :=
  { visibility := .Public, name := "test_function1", address := none,
    arguments := [.MutSelf,
      .Field "arg0" (SType.Raw ⟨["u32"]⟩),
      .Field "arg1" (SType.Raw ⟨["f32"]⟩)],
    return_type := none,
    calling_convention := .Thiscall }

def vfIndexedDecls : List VFuncDecl :=
  [{ function := vfTestFunction0, index := some 2 },
   { function := vfTestFunction1, index := some 5 }]

/-- The same two functions without `index` attributes, under `size(4)`, as
in the test `can_generate_vftable` (`tests/mod.rs` lines 328-435). -/
def vfPlainDecls : List VFuncDecl :=
  [{ function := vfTestFunction0, index := none },
   { function := vfTestFunction1, index := none }]

end Pyxis

namespace Pyxis

/-- C8: the size and alignment queries of `Type` (`types.rs` lines 61-81)
are pointer-sized for const pointers, mut pointers and function types
regardless of the state of the pointee or signature types; unknown for
`Unresolved`; and for arrays they multiply the element size by the count
and take the element alignment exactly when the element query succeeds. -/
theorem c8_type_size_alignment_queries :
    (∀ (r : TypeRegistry) (t : SType),
        (SType.ConstPointer t).size r = some r.pointerSize
        ∧ (SType.ConstPointer t).alignment r = some r.pointerSize
        ∧ (SType.MutPointer t).size r = some r.pointerSize
        ∧ (SType.MutPointer t).alignment r = some r.pointerSize)
    ∧ (∀ (r : TypeRegistry) (cc : CallingConvention)
        (args : List (String × SType)) (ret : Option SType),
        (SType.Function cc args ret).size r = some r.pointerSize
        ∧ (SType.Function cc args ret).alignment r = some r.pointerSize)
    ∧ (∀ (r : TypeRegistry) (g : GrammarType),
        (SType.Unresolved g).size r = none
        ∧ (SType.Unresolved g).alignment r = none)
    ∧ (∀ (r : TypeRegistry) (t : SType) (n : Nat),
        (SType.Array t n).size r = (t.size r).map (fun s => s * n)
        ∧ (SType.Array t n).alignment r = t.alignment r) :=
  ⟨fun _ _ => ⟨rfl, rfl, rfl, rfl⟩,
   fun _ _ _ _ => ⟨rfl, rfl⟩,
   fun _ _ => ⟨rfl, rfl⟩,
   fun _ _ _ => ⟨rfl, rfl⟩⟩

/-- C10: `CallingConvention` string handling (`function.rs` lines 35-67):
parsing `as_str()` output round-trips, `Display` equals `as_str`, and a
string parses successfully exactly when it is the `as_str` rendering of the
parsed value — so any string that is none of the seven outputs fails. -/
theorem c10_calling_convention_roundtrip :
    (∀ cc : CallingConvention, CallingConvention.fromStr cc.asStr = some cc)
    ∧ (∀ cc : CallingConvention, cc.display = cc.asStr)
    ∧ (∀ (s : String) (cc : CallingConvention),
        CallingConvention.fromStr s = some cc ↔ s = cc.asStr) := by
  refine ⟨fun cc => by cases cc <;> rfl, fun cc => rfl, fun s cc => ?_⟩
  constructor
  · intro h
    unfold CallingConvention.fromStr at h
    split at h <;> simp_all <;> (cases h; rfl)
  · intro h
    subst h
    cases cc <;> rfl

/-- C4: `backends/rust.rs::build_function` (lines 142-173): building a free
(non-vftable) function with no `address` attribute fails with exactly
"no function getter set", and with more than one address attribute the
second fails the build with the "function getter already set" error. -/
theorem c4_function_getter_errors :
    (determineFunctionGetter false [] = .error "no function getter set")
    ∧ (∀ (a b : Nat) (rest : List BackendAttribute),
        determineFunctionGetter false
          (.Address a :: .Address b :: rest) =
          .error ("function getter already set: Some(Address(" ++ toString a ++ "))")) :=
  ⟨rfl, fun _ _ _ => rfl⟩

/-- Helper: an element of a `getElem?` result is a member of the list. -/
theorem mem_of_getElem_opt {α : Type} {l : List α} {n : Nat} {a : α}
    (h : l[n]? = some a) : a ∈ l := by
  obtain ⟨hn, rfl⟩ := List.getElem?_eq_some.mp h
  exact List.getElem_mem ..

/-- Helper: `find?` on a key-value list with distinct keys returns the unique
entry carrying the sought key. -/
theorem find_keyed_nodup {α : Type} (i : Nat) (x : α) (l : List (Nat × α))
    (hnd : (l.map Prod.fst).Nodup) (hmem : (i, x) ∈ l) :
    l.find? (fun a => a.1 == i) = some (i, x) := by
  induction l with
  | nil => cases hmem
  | cons hd t ih =>
    obtain ⟨j, y⟩ := hd
    rw [List.map_cons, List.nodup_cons] at hnd
    by_cases hji : j = i
    · subst hji
      have hxy : y = x := by
        rcases List.mem_cons.mp hmem with heq | hmem' :
            (j, x) = (j, y) ∨ (j, x) ∈ t
        · injection heq with h1 h2
          exact h2.symm
        · exact absurd (List.mem_map.mpr ⟨(j, x), hmem', rfl⟩) hnd.1
      rw [List.find?_cons_of_pos _ (by simp), hxy]
    · have hmem' : (i, x) ∈ t := by
        rcases List.mem_cons.mp hmem with heq | hmem'
        · injection heq with h1 h2
          exact absurd h1.symm hji
        · exact hmem'
      rw [List.find?_cons_of_neg _ (by simp [hji])]
      exact ih hnd.2 hmem'

/-- Helper: `find?` misses a key absent from a key-value list. -/
theorem find_keyed_none {α : Type} (i : Nat) (l : List (Nat × α))
    (h : ∀ a ∈ l, a.1 ≠ i) :
    l.find? (fun a => a.1 == i) = none :=
  List.find?_eq_none.mpr (fun a ha => by simpa using h a ha)

/-- Helper: `find?` on the zip of a duplicate-free key list locates the pair
at the key's position. -/
theorem find_zip_at {α : Type} (l1 : List Nat) (l2 : List α) (k s : Nat) (f : α)
    (hnd : l1.Nodup) (h1 : l1[k]? = some s) (h2 : l2[k]? = some f) :
    (l1.zip l2).find? (fun a => a.1 == s) = some (s, f) := by
  induction l1 generalizing l2 k with
  | nil => simp at h1
  | cons a t1 ih =>
    cases l2 with
    | nil => simp at h2
    | cons b t2 =>
      rw [List.nodup_cons] at hnd
      cases k with
      | zero =>
        simp at h1 h2
        subst h1
        subst h2
        rw [List.zip_cons_cons, List.find?_cons_of_pos _ (by simp)]
      | succ k =>
        simp at h1 h2
        have hst1 : s ∈ t1 := mem_of_getElem_opt h1
        have has : a ≠ s := fun h => hnd.1 (h ▸ hst1)
        rw [List.zip_cons_cons, List.find?_cons_of_neg _ (by simp [has])]
        exact ih t2 k hnd.2 h1 h2

/-- Helper: a member of a list is bounded by the running `max (i + 1)`
fold. -/
theorem mem_lt_foldr_end (l : List Nat) (i : Nat) (h : i ∈ l) :
    i + 1 ≤ l.foldr (fun j m => max (j + 1) m) 0 := by
  induction l with
  | nil => cases h
  | cons a t ih =>
    rcases List.mem_cons.mp h with rfl | h'
    · exact le_max_left _ _
    · exact le_trans (ih h') (le_max_right _ _)

/-- Helper: every slot assignment carries the function of some declared
vftable function. -/
theorem slotAssignments_mem (decls : List VFuncDecl) (sizeAttr : Option Nat)
    (a : Nat × SFunction) (h : a ∈ slotAssignments decls sizeAttr) :
    ∃ d ∈ decls, a.2 = d.function := by
  rcases List.mem_append.mp h with h1 | h2
  · obtain ⟨d, hd, hmap⟩ := List.mem_filterMap.mp h1
    cases hidx : d.index with
    | none => rw [hidx] at hmap; cases hmap
    | some i =>
      rw [hidx] at hmap
      injection hmap with hmap
      exact ⟨d, hd, by rw [← hmap]⟩
  · obtain ⟨-, hf⟩ := List.of_mem_zip h2
    obtain ⟨d, hd, hfd⟩ := List.mem_map.mp hf
    exact ⟨d, (List.mem_filter.mp hd).1, hfd.symm⟩

/-- Helper: membership in `freeSlots` is exactly being in range and not
claimed by an explicit index. -/
theorem freeSlots_mem (decls : List VFuncDecl) (total s : Nat) :
    s ∈ freeSlots decls total ↔ s < total ∧ s ∉ explicitIndices decls := by
  simp [freeSlots, List.mem_filter, List.mem_range]

/-- Helper: the slot list evaluated at an in-range index. -/
theorem vftableFunctionList_getElem (decls : List VFuncDecl)
    (sizeAttr : Option Nat) (i : Nat) (h : i < vftableSlotCount decls sizeAttr) :
    (vftableFunctionList decls sizeAttr)[i]? =
      some (match (slotAssignments decls sizeAttr).find? (fun a => a.1 == i) with
        | some a => a.2
        | none => makeVfunc i) := by
  unfold vftableFunctionList
  rw [List.getElem?_map]
  simp [List.getElem?_range, h]

/-- C2 counterexample: on the input of the test
`can_generate_vftable_with_indices` — two declared functions pinned to slots
2 and 5 under a vftable `size(8)` attribute — the synthesized table has 8
slots (as the test expects), not `max(M+1, count) = max(6, 2) = 6` as the
claim states. -/
theorem c2_vftable_slot_count_counterexample :
    vftableFunctionList vfIndexedDecls (some 8) =
      [makeVfunc 0, makeVfunc 1, vfTestFunction0, makeVfunc 3, makeVfunc 4,
       vfTestFunction1, makeVfunc 6, makeVfunc 7]
    ∧ (vftableFunctionList vfIndexedDecls (some 8)).length ≠
        max (maxExplicitEnd vfIndexedDecls) vfIndexedDecls.length :=
  ⟨rfl, by decide⟩

/-- C2 (amended): for N declared vftable functions with maximum explicit
`index` M, the synthesized vftable has exactly
`max(M+1, N, declared vftable size attribute)` slots (the attribute counting
as 0 when absent), and every slot is filled with either a declared function
or the synthesized `_vfunc_<i>` placeholder — no index gaps. -/
theorem c2_vftable_slot_count :
    ∀ (decls : List VFuncDecl) (sizeAttr : Option Nat),
      (vftableFunctionList decls sizeAttr).length =
        max (sizeAttr.getD 0) (max (maxExplicitEnd decls) decls.length)
      ∧ ∀ i, i < (vftableFunctionList decls sizeAttr).length →
          ((∃ d ∈ decls, (vftableFunctionList decls sizeAttr)[i]? = some d.function)
            ∨ (vftableFunctionList decls sizeAttr)[i]? = some (makeVfunc i)) := by
  intro decls sizeAttr
  have hlen : (vftableFunctionList decls sizeAttr).length =
      vftableSlotCount decls sizeAttr := by
    simp [vftableFunctionList]
  refine ⟨hlen, ?_⟩
  intro i hi
  rw [hlen] at hi
  rw [vftableFunctionList_getElem decls sizeAttr i hi]
  cases hfind : (slotAssignments decls sizeAttr).find? (fun a => a.1 == i) with
  | none => exact Or.inr rfl
  | some a =>
    obtain ⟨d, hd, hfun⟩ :=
      slotAssignments_mem decls sizeAttr a (List.mem_of_find?_eq_some hfind)
    exact Or.inl ⟨d, hd, by show some a.2 = some d.function; rw [hfun]⟩

/-- C2 witness: the amended slot-count law evaluated on the indexed-vftable
test input at slot 0. -/
theorem c2_vftable_slot_count_witness :
    (vftableFunctionList vfIndexedDecls (some 8)).length =
      max ((some 8 : Option Nat).getD 0)
        (max (maxExplicitEnd vfIndexedDecls) vfIndexedDecls.length)
    ∧ ((∃ d ∈ vfIndexedDecls,
          (vftableFunctionList vfIndexedDecls (some 8))[0]? = some d.function)
        ∨ (vftableFunctionList vfIndexedDecls (some 8))[0]? = some (makeVfunc 0)) :=
  ⟨(c2_vftable_slot_count vfIndexedDecls (some 8)).1,
   (c2_vftable_slot_count vfIndexedDecls (some 8)).2 0 (by decide)⟩

/-- C3: vftable slot assignment.  (i) A function with an explicit `index`
attribute occupies exactly that slot (given distinct explicit indices on the
type).  (ii) The free slots form the increasing enumeration of exactly the
slots not claimed by an explicit index, and the k-th unindexed function (in
declaration order) lands on the k-th free slot — left-to-right filling that
skips claimed slots.  (iii) Every slot without an assignment is the
synthesized placeholder, (iv) which is a private function named
`_vfunc_<slot>` whose argument list is exactly one MutSelf argument and
which has no return type.  (v)-(vi) On the two vftable test inputs from
`tests/mod.rs`, the model reproduces the expected slot lists exactly. -/
theorem c3_vftable_slot_assignment :
    (∀ (decls : List VFuncDecl) (sizeAttr : Option Nat) (d : VFuncDecl) (i : Nat),
        (explicitIndices decls).Nodup → d ∈ decls → d.index = some i →
        (vftableFunctionList decls sizeAttr)[i]? = some d.function)
    ∧ (∀ (decls : List VFuncDecl) (sizeAttr : Option Nat),
        (freeSlots decls (vftableSlotCount decls sizeAttr)).Pairwise (· < ·)
        ∧ (∀ s, s ∈ freeSlots decls (vftableSlotCount decls sizeAttr) ↔
            (s < vftableSlotCount decls sizeAttr ∧ s ∉ explicitIndices decls))
        ∧ (∀ (k s : Nat) (f : SFunction),
            (freeSlots decls (vftableSlotCount decls sizeAttr))[k]? = some s →
            (unindexedFunctions decls)[k]? = some f →
            (vftableFunctionList decls sizeAttr)[s]? = some f))
    ∧ (∀ (decls : List VFuncDecl) (sizeAttr : Option Nat) (i : Nat),
        i < vftableSlotCount decls sizeAttr →
        i ∉ (slotAssignments decls sizeAttr).map Prod.fst →
        (vftableFunctionList decls sizeAttr)[i]? = some (makeVfunc i))
    ∧ (∀ i, (makeVfunc i).name = "_vfunc_" ++ toString i
        ∧ (makeVfunc i).arguments = [Argument.MutSelf]
        ∧ (makeVfunc i).return_type = none
        ∧ (makeVfunc i).visibility = Visibility.Private)
    ∧ vftableFunctionList vfIndexedDecls (some 8) =
        [makeVfunc 0, makeVfunc 1, vfTestFunction0, makeVfunc 3, makeVfunc 4,
         vfTestFunction1, makeVfunc 6, makeVfunc 7]
    ∧ vftableFunctionList vfPlainDecls (some 4) =
        [vfTestFunction0, vfTestFunction1, makeVfunc 2, makeVfunc 3] := by
  refine ⟨?pins, ?free, ?placeholder, fun i => ⟨rfl, rfl, rfl, rfl⟩, rfl, rfl⟩
  case pins =>
    intro decls sizeAttr d i hnd hd hidx
    have hmem : (i, d.function) ∈ explicitAssignments decls :=
      List.mem_filterMap.mpr ⟨d, hd, by rw [hidx]; rfl⟩
    have hi : i < vftableSlotCount decls sizeAttr := by
      have h1 : i + 1 ≤ maxExplicitEnd decls :=
        mem_lt_foldr_end _ i (List.mem_map.mpr ⟨(i, d.function), hmem, rfl⟩)
      exact lt_of_lt_of_le h1 (le_trans (le_max_left _ _) (le_max_right _ _))
    rw [vftableFunctionList_getElem decls sizeAttr i hi]
    have hfind : (slotAssignments decls sizeAttr).find? (fun a => a.1 == i) =
        some (i, d.function) := by
      unfold slotAssignments
      rw [List.find?_append, find_keyed_nodup i d.function _ hnd hmem]
      rfl
    rw [hfind]
  case free =>
    intro decls sizeAttr
    refine ⟨(List.pairwise_lt_range _).filter _,
      freeSlots_mem decls (vftableSlotCount decls sizeAttr), ?_⟩
    intro k s f hks hkf
    obtain ⟨hst, hsnot⟩ :=
      (freeSlots_mem decls (vftableSlotCount decls sizeAttr) s).mp
        (mem_of_getElem_opt hks)
    rw [vftableFunctionList_getElem decls sizeAttr s hst]
    have hnone : (explicitAssignments decls).find? (fun a => a.1 == s) = none :=
      find_keyed_none s _ (fun a ha has =>
        hsnot (has ▸ List.mem_map.mpr ⟨a, ha, rfl⟩))
    have hzip : ((freeSlots decls (vftableSlotCount decls sizeAttr)).zip
        (unindexedFunctions decls)).find? (fun a => a.1 == s) = some (s, f) :=
      find_zip_at _ _ k s f ((List.nodup_range _).filter _) hks hkf
    have hfind : (slotAssignments decls sizeAttr).find? (fun a => a.1 == s) =
        some (s, f) := by
      unfold slotAssignments
      rw [List.find?_append, hnone, hzip]
      rfl
    rw [hfind]
  case placeholder =>
    intro decls sizeAttr i hi hnot
    rw [vftableFunctionList_getElem decls sizeAttr i hi]
    have hfind : (slotAssignments decls sizeAttr).find? (fun a => a.1 == i) =
        none :=
      find_keyed_none i _ (fun a ha hai =>
        hnot (hai ▸ List.mem_map.mpr ⟨a, ha, rfl⟩))
    rw [hfind]

/-- Whether an attribute is a `calling_convention` attribute (by its
identifier). -/
def isCCAttr : GAttribute → Bool
  | .function ident _ => ident == "calling_convention"
  | .nonFunction => false

/-- Helper: the attribute loop leaves the calling-convention accumulator
untouched when no `calling_convention` attribute occurs. -/
theorem processAttrs_cc_none (fname : String) (attrs : List GAttribute) :
    ∀ (addr : Option Nat) (cc0 : Option CallingConvention)
      (res : Option Nat × Option CallingConvention),
      (∀ a ∈ attrs, isCCAttr a = false) →
      processAttrs fname attrs addr cc0 = Except.ok res → res.2 = cc0 := by
  induction attrs with
  | nil =>
    intro addr cc0 res _ h
    injection h with h
    rw [← h]
  | cons a rest ih =>
    intro addr cc0 res hno h
    have hhead := hno a (List.mem_cons_self a rest)
    have htail : ∀ b ∈ rest, isCCAttr b = false :=
      fun b hb => hno b (List.mem_cons_of_mem a hb)
    cases a with
    | nonFunction => exact Except.noConfusion h
    | function ident exprs =>
      simp only [processAttrs] at h
      split at h
      · split at h
        · exact Except.noConfusion h
        · exact ih _ _ _ htail h
      · exact ih _ _ _ htail h
      · simp [isCCAttr] at hhead
      · exact Except.noConfusion h

/-- Helper: the attribute loop records the parsed value of the last
`calling_convention` attribute. -/
theorem processAttrs_cc_last (fname : String) (post : List GAttribute)
    (s : String) (c : CallingConvention)
    (hpost : ∀ a ∈ post, isCCAttr a = false)
    (hs : CallingConvention.fromStr s = some c) :
    ∀ (pre : List GAttribute) (addr : Option Nat)
      (cc0 : Option CallingConvention)
      (res : Option Nat × Option CallingConvention),
      processAttrs fname
        (pre ++ GAttribute.function "calling_convention"
          [GExpr.StringLiteral s] :: post) addr cc0 = Except.ok res →
      res.2 = some c := by
  intro pre
  induction pre with
  | nil =>
    intro addr cc0 res h
    simp only [List.nil_append, processAttrs, hs] at h
    exact processAttrs_cc_none fname post _ _ res hpost h
  | cons b pre ih =>
    intro addr cc0 res h
    rw [List.cons_append] at h
    cases b with
    | nonFunction => exact Except.noConfusion h
    | function ident exprs =>
      simp only [processAttrs] at h
      split at h
      · split at h
        · exact Except.noConfusion h
        · exact ih _ _ _ h
      · exact ih _ _ _ h
      · split at h
        · exact ih _ _ _ h
        · exact Except.noConfusion h
      · exact Except.noConfusion h

/-- Helper: argument building maps constructors one-to-one, so the built
list has a self argument exactly when the grammar list does. -/
theorem buildArguments_hasSelf (resolve : GrammarType → Option SType) :
    ∀ (gargs : List GArgument) (args : List Argument),
      buildArguments resolve gargs = Except.ok args →
      hasSelfArgument args = gHasSelfArgument gargs := by
  intro gargs
  induction gargs with
  | nil =>
    intro args h
    injection h with h
    rw [← h]
    rfl
  | cons a rest ih =>
    intro args h
    cases a with
    | ConstSelf =>
      simp only [buildArguments, bind, Except.bind] at h
      cases hrest : buildArguments resolve rest with
      | error e => rw [hrest] at h; exact Except.noConfusion h
      | ok others =>
        rw [hrest] at h
        injection h with h
        rw [← h]
        rfl
    | MutSelf =>
      simp only [buildArguments, bind, Except.bind] at h
      cases hrest : buildArguments resolve rest with
      | error e => rw [hrest] at h; exact Except.noConfusion h
      | ok others =>
        rw [hrest] at h
        injection h with h
        rw [← h]
        rfl
    | Named n t =>
      simp only [buildArguments, bind, Except.bind] at h
      cases hres : resolve t with
      | none => rw [hres] at h; exact Except.noConfusion h
      | some ty =>
        rw [hres] at h
        cases hrest : buildArguments resolve rest with
        | error e => rw [hrest] at h; exact Except.noConfusion h
        | ok others =>
          rw [hrest] at h
          injection h with h
          rw [← h]
          simp only [hasSelfArgument, gHasSelfArgument, List.any_cons,
            Bool.false_or]
          exact ih others hrest

/-- Helper: a successful `buildFunction` run decomposes into successful
attribute processing and argument building, with the calling convention
computed from those. -/
theorem buildFunction_ok (resolve : GrammarType → Option SType) (f : GFunction)
    (out : SFunction) (h : buildFunction resolve f = Except.ok out) :
    ∃ (attrs : Option Nat × Option CallingConvention) (args : List Argument),
      processAttrs f.name f.attributes none none = Except.ok attrs
      ∧ buildArguments resolve f.arguments = Except.ok args
      ∧ out.calling_convention =
          (match attrs.2 with
           | some c => c
           | none => if hasSelfArgument args then CallingConvention.Thiscall
              else CallingConvention.System) := by
  simp only [buildFunction, bind, Except.bind] at h
  cases hattrs : processAttrs f.name f.attributes none none with
  | error e => rw [hattrs] at h; exact Except.noConfusion h
  | ok attrs =>
    rw [hattrs] at h
    cases hargs : buildArguments resolve f.arguments with
    | error e => rw [hargs] at h; exact Except.noConfusion h
    | ok args =>
      rw [hargs] at h
      injection h with h
      exact ⟨attrs, args, rfl, rfl, by rw [← h]⟩

/-- C5: calling-convention determination (`function.rs::build` lines
176-188).  Without a `calling_convention` attribute, a built function gets
`Thiscall` when any argument is `ConstSelf`/`MutSelf` and `System`
otherwise; with the attribute (the last such attribute, here the unique
one), the named convention wins.  For a vftable slot function, the region
of the synthesized companion type carries the function type with exactly
the function's calling convention. -/
theorem c5_calling_convention :
    (∀ (resolve : GrammarType → Option SType) (f : GFunction) (out : SFunction),
        buildFunction resolve f = Except.ok out →
        (∀ a ∈ f.attributes, isCCAttr a = false) →
        out.calling_convention =
          (if gHasSelfArgument f.arguments then CallingConvention.Thiscall
           else CallingConvention.System))
    ∧ (∀ (resolve : GrammarType → Option SType) (f : GFunction) (out : SFunction)
        (pre post : List GAttribute) (s : String) (c : CallingConvention),
        buildFunction resolve f = Except.ok out →
        f.attributes = pre ++ GAttribute.function "calling_convention"
          [GExpr.StringLiteral s] :: post →
        (∀ a ∈ post, isCCAttr a = false) →
        CallingConvention.fromStr s = some c →
        out.calling_convention = c)
    ∧ (∀ (owner : ItemPath) (f : SFunction),
        regionTypeCC (regionOfVFunc owner f) = some f.calling_convention) := by
  refine ⟨?noattr, ?attr, fun owner f => rfl⟩
  case noattr =>
    intro resolve f out h hno
    obtain ⟨attrs, args, hattrs, hargs, hcc⟩ := buildFunction_ok resolve f out h
    have h2 : attrs.2 = none := processAttrs_cc_none f.name f.attributes _ _ _ hno hattrs
    rw [hcc, h2, buildArguments_hasSelf resolve f.arguments args hargs]
  case attr =>
    intro resolve f out pre post s c h hattr hpost hs
    obtain ⟨attrs, args, hattrs, hargs, hcc⟩ := buildFunction_ok resolve f out h
    rw [hattr] at hattrs
    have h2 : attrs.2 = some c :=
      processAttrs_cc_last f.name post s c hpost hs pre _ _ _ hattrs
    rw [hcc, h2]

/-- The free function of the test
`will_propagate_calling_convention_for_impl_and_vftable` (`tests/mod.rs`
lines 579-588): `test_function` with an `address` and a
`calling_convention("cdecl")` attribute. -/
def ccTestGFunction : GFunction :=
  { visibility := .Public, name := "test_function",
    attributes := [.function "address" [.IntLiteral 0x800000],
      .function "calling_convention" [.StringLiteral "cdecl"]],
    arguments := [.Named "arg1" ⟨"i32"⟩],
    return_type := some ⟨"i32"⟩ }

/-- A resolver exposing only the predefined `i32`, standing for the test
module's scope. -/
def ccTestResolve (t : GrammarType) : Option SType :=
  if t.text = "i32" then some (SType.Raw ⟨["i32"]⟩) else none

/-- C5 witness: building the propagation test's free function yields the
`cdecl` convention, by the claim theorem applied at that input. -/
theorem c5_calling_convention_witness :
    (SFunction.mk .Public "test_function" (some 0x800000)
        [.Field "arg1" (SType.Raw ⟨["i32"]⟩)] (some (SType.Raw ⟨["i32"]⟩))
        .Cdecl).calling_convention = CallingConvention.Cdecl :=
  c5_calling_convention.2.1 ccTestResolve ccTestGFunction _
    [.function "address" [.IntLiteral 0x800000]] [] "cdecl" .Cdecl rfl rfl
    (fun a ha => absurd ha (List.not_mem_nil a)) rfl

/-- Modelled from the spec (§4.4, enum resolution; the resolving code lives
in the absent `semantic_state.rs`): discriminants are assigned left-to-right
with an accumulator holding the next default value — an explicit value
resets it, an unspecified field takes it — starting from 0. -/
def resolveEnumFieldsGo (next : Int) :
    List (String × Option Int) → List (String × Int)
  | [] => []
  | (n, some v) :: rest => (n, v) :: resolveEnumFieldsGo (v + 1) rest
  | (n, none) :: rest => (n, next) :: resolveEnumFieldsGo (next + 1) rest

/-- Modelled from the spec: discriminant assignment for an enum's field
list, starting at 0. -/
def resolveEnumFields (fs : List (String × Option Int)) : List (String × Int) :=
  resolveEnumFieldsGo 0 fs

/-- Helper: discriminant assignment preserves length. -/
theorem resolveEnumFieldsGo_length (fs : List (String × Option Int)) :
    ∀ next, (resolveEnumFieldsGo next fs).length = fs.length := by
  induction fs with
  | nil => intro next; rfl
  | cons f rest ih =>
    intro next
    obtain ⟨n, v⟩ := f
    cases v <;> simp [resolveEnumFieldsGo, ih]

/-- Helper: an explicit discriminant is kept verbatim. -/
theorem resolveEnumFieldsGo_explicit (fs : List (String × Option Int)) :
    ∀ (next : Int) (i : Nat) (n : String) (v : Int),
      fs[i]? = some (n, some v) →
      (resolveEnumFieldsGo next fs)[i]? = some (n, v) := by
  induction fs with
  | nil => intro next i n v h; simp at h
  | cons f rest ih =>
    intro next i n v h
    obtain ⟨m, w⟩ := f
    cases i with
    | zero =>
      rw [List.getElem?_cons_zero] at h
      injection h with h
      injection h with h1 h2
      subst h1
      subst h2
      simp [resolveEnumFieldsGo]
    | succ i =>
      rw [List.getElem?_cons_succ] at h
      cases w with
      | some u =>
        simpa [resolveEnumFieldsGo, List.getElem?_cons_succ]
          using ih (u + 1) i n v h
      | none =>
        simpa [resolveEnumFieldsGo, List.getElem?_cons_succ]
          using ih (next + 1) i n v h

/-- Helper: an unspecified leading discriminant takes the accumulator. -/
theorem resolveEnumFieldsGo_head_none (fs : List (String × Option Int))
    (next : Int) (n : String) (h : fs[0]? = some (n, none)) :
    (resolveEnumFieldsGo next fs)[0]? = some (n, next) := by
  cases fs with
  | nil => simp at h
  | cons f rest =>
    obtain ⟨m, w⟩ := f
    rw [List.getElem?_cons_zero] at h
    injection h with h
    injection h with h1 h2
    subst h1
    subst h2
    simp [resolveEnumFieldsGo]

/-- Helper: an unspecified discriminant is the previous one plus one. -/
theorem resolveEnumFieldsGo_none_succ (fs : List (String × Option Int)) :
    ∀ (next : Int) (i : Nat) (n p : String) (pv : Int),
      fs[i + 1]? = some (n, none) →
      (resolveEnumFieldsGo next fs)[i]? = some (p, pv) →
      (resolveEnumFieldsGo next fs)[i + 1]? = some (n, pv + 1) := by
  induction fs with
  | nil => intro next i n p pv h _; simp at h
  | cons f rest ih =>
    intro next i n p pv h hp
    obtain ⟨m, w⟩ := f
    rw [List.getElem?_cons_succ] at h
    cases i with
    | zero =>
      cases w with
      | some v =>
        simp only [resolveEnumFieldsGo, List.getElem?_cons_zero] at hp
        injection hp with hp
        injection hp with h1 h2
        simp only [resolveEnumFieldsGo, List.getElem?_cons_succ]
        rw [← h2]
        exact resolveEnumFieldsGo_head_none rest (v + 1) n h
      | none =>
        simp only [resolveEnumFieldsGo, List.getElem?_cons_zero] at hp
        injection hp with hp
        injection hp with h1 h2
        simp only [resolveEnumFieldsGo, List.getElem?_cons_succ]
        rw [← h2]
        exact resolveEnumFieldsGo_head_none rest (next + 1) n h
    | succ j =>
      cases w with
      | some v =>
        simp only [resolveEnumFieldsGo, List.getElem?_cons_succ] at hp ⊢
        exact ih (v + 1) j n p pv h hp
      | none =>
        simp only [resolveEnumFieldsGo, List.getElem?_cons_succ] at hp ⊢
        exact ih (next + 1) j n p pv h hp

/-- C6: enum discriminants are assigned left-to-right — an explicit value
is kept, an unspecified first discriminant defaults to 0, every later
unspecified discriminant is the previous discriminant plus one, names and
length are preserved — and the `can_resolve_enum` field list
`[Item0=-2, Item1, Item2, Item3=10, Item4]` resolves to
`[-2, -1, 0, 10, 11]`. -/
theorem c6_enum_discriminant_assignment :
    (∀ fs : List (String × Option Int),
        (resolveEnumFields fs).length = fs.length)
    ∧ (∀ (fs : List (String × Option Int)) (i : Nat) (n : String) (v : Int),
        fs[i]? = some (n, some v) → (resolveEnumFields fs)[i]? = some (n, v))
    ∧ (∀ (fs : List (String × Option Int)) (n : String),
        fs[0]? = some (n, none) → (resolveEnumFields fs)[0]? = some (n, 0))
    ∧ (∀ (fs : List (String × Option Int)) (i : Nat) (n p : String) (pv : Int),
        fs[i + 1]? = some (n, none) →
        (resolveEnumFields fs)[i]? = some (p, pv) →
        (resolveEnumFields fs)[i + 1]? = some (n, pv + 1))
    ∧ resolveEnumFields
        [("Item0", some (-2)), ("Item1", none), ("Item2", none),
         ("Item3", some 10), ("Item4", none)] =
        [("Item0", -2), ("Item1", -1), ("Item2", 0), ("Item3", 10),
         ("Item4", 11)] :=
  ⟨fun fs => resolveEnumFieldsGo_length fs 0,
   fun fs i n v h => resolveEnumFieldsGo_explicit fs 0 i n v h,
   fun fs n h => resolveEnumFieldsGo_head_none fs 0 n h,
   fun fs i n p pv h hp => resolveEnumFieldsGo_none_succ fs 0 i n p pv h hp,
   rfl⟩

/-- C6 witness: the discriminant-assignment laws evaluated on the
`can_resolve_enum` field list. -/
theorem c6_enum_discriminant_assignment_witness :
    (resolveEnumFields
        [("Item0", some (-2)), ("Item1", none), ("Item2", none),
         ("Item3", some 10), ("Item4", none)])[3]? = some ("Item3", (10 : Int))
    ∧ (resolveEnumFields
        [("Item0", some (-2)), ("Item1", none), ("Item2", none),
         ("Item3", some 10), ("Item4", none)])[4]? = some ("Item4", (11 : Int)) :=
  ⟨c6_enum_discriminant_assignment.2.1
      [("Item0", some (-2)), ("Item1", none), ("Item2", none),
       ("Item3", some 10), ("Item4", none)] 3 "Item3" 10 rfl,
   c6_enum_discriminant_assignment.2.2.2.1
      [("Item0", some (-2)), ("Item1", none), ("Item2", none),
       ("Item3", some 10), ("Item4", none)] 3 "Item4" "Item3" 10 rfl
      (c6_enum_discriminant_assignment.2.1
        [("Item0", some (-2)), ("Item1", none), ("Item2", none),
         ("Item3", some 10), ("Item4", none)] 3 "Item3" 10 rfl)⟩

/-- An opaque byte blob of the given size (`unknown(n)` in the tests):
a `u8` array. -/
def unknownType (n : Nat) : SType :=
  SType.Array (SType.Raw ⟨["u8"]⟩) n

/-- A struct field declaration as seen by the layout algorithm: visibility,
source name, resolved type, and the optional `address` attribute. -/
structure FieldDecl where
  visibility : Visibility
  name : String
  type_ : SType
  address : Option Nat
deriving Repr

/-- The `size`/`align` attributes of a struct declaration. -/
structure StructAttrs where
  size : Option Nat := none
  align : Option Nat := none
deriving Repr

/-- Lowercase hexadecimal rendering of a natural number (Rust `{:x}`). -/
def hexStr (n : Nat) : String :=
  String.mk (Nat.toDigits 16 n)

/-- Modelled from the spec (§4.4 steps 2-3) and the expected region lists in
`tests/mod.rs`: a synthetic padding region covering a gap — a private field
named `_field_<hex start offset>` typed as an opaque byte blob. -/
def padFieldRegion (offset gap : Nat) : Region :=
  Region.field .Private ("_field_" ++ hexStr offset) (unknownType gap)

/-- Modelled from the spec (§4.4 steps 1-3; the layout engine lives in the
absent `semantic_state.rs`): walk fields in source order with a running
offset, jump to a field's `address` attribute when present (emitting the
synthetic padding region over the gap), rename placeholder `_` fields to
`_field_<hex offset>`, and fail when a field's type has no known size or
its address jumps backwards. -/
def layoutFields (r : TypeRegistry) :
    List FieldDecl → Nat → List Region → Except String (List Region × Nat)
  | [], offset, acc => .ok (acc.reverse, offset)
  | f :: rest, offset, acc =>
    match f.type_.size r with
    | none => .error ("failed to resolve type of field `" ++ f.name ++ "`")
    | some fsize =>
      let target := f.address.getD offset
      if target < offset then
        .error ("field `" ++ f.name ++ "` overlaps existing data")
      else
        let acc2 := if offset < target then
            padFieldRegion offset (target - offset) :: acc
          else acc
        let fname := if f.name = "_" then "_field_" ++ hexStr target else f.name
        layoutFields r rest (target + fsize)
          (Region.field f.visibility fname f.type_ :: acc2)

/-- Modelled from the spec (§4.4 step 4): the alignment of a struct without
an `align` attribute is the maximum alignment among its fields, at least
1. -/
def maxFieldAlignment (r : TypeRegistry) (fields : List FieldDecl) : Nat :=
  fields.foldl (fun m f => max m ((f.type_.alignment r).getD 1)) 1

/-- Modelled from the spec (§4.4 steps 1-4): resolve a struct body to its
region list, total size and alignment — padding to a declared `size`
attribute (failing when the content exceeds it) and taking the declared
`align` attribute or the maximum field alignment. -/
def resolveStructLayout (r : TypeRegistry) (fields : List FieldDecl)
    (attrs : StructAttrs) : Except String (List Region × Nat × Nat) :=
  match layoutFields r fields 0 [] with
  | .error e => .error e
  | .ok (regions, contentSize) =>
    let alignment := attrs.align.getD (maxFieldAlignment r fields)
    match attrs.size with
    | some s =>
      if s < contentSize then
        .error "declared size is smaller than the content already placed"
      else if contentSize < s then
        .ok (regions ++ [padFieldRegion contentSize (s - contentSize)], s,
          alignment)
      else .ok (regions, s, alignment)
    | none => .ok (regions, contentSize, alignment)

/-- A predefined primitive registry entry with the given size and
alignment. -/
def predefinedItem (name : String) (size alignment : Nat) :
    ItemPath × ItemDefinition :=
  (⟨[name]⟩,
   { visibility := .Public, path := ⟨[name]⟩,
     state := .Resolved
       { size := size, alignment := alignment, inner := .TypeDef {} },
     category := .Predefined })

/-- The registry used by the tests: `SemanticState::new(4)` — pointer size
4 — with the predefined primitives the test scenarios touch, plus the
resolved `test::TestType` (size 8, alignment 4) that
`can_resolve_complex_type` embeds into `Singleton`. -/
def testRegistry : TypeRegistry :=
  { pointerSize := 4,
    items := [predefinedItem "u8" 1 1, predefinedItem "u16" 2 2,
      predefinedItem "u32" 4 4, predefinedItem "u64" 8 8,
      predefinedItem "i32" 4 4, predefinedItem "f32" 4 4,
      (⟨["test", "TestType"]⟩,
       { visibility := .Public, path := ⟨["test", "TestType"]⟩,
         state := .Resolved
           { size := 8, alignment := 4, inner := .TypeDef {} },
         category := .Defined })] }

/-- C7: on the 4-byte-pointer test registry, a struct with `field_1: i32`
followed by `field_2: u64` requested at `address(8)` resolves — with no
explicit `size` or `align` attribute — to regions with a synthetic 4-byte
padding region named `_field_4` between the two fields, total size 16, and
alignment `max(4, 8) = 8`.  As further grounding, the model reproduces the
full region list, size `0x1750` and alignment 4 that the
`can_resolve_complex_type` test expects for `Singleton`. -/
theorem c7_struct_padding_scenario :
    testRegistry.pointerSize = 4
    ∧ resolveStructLayout testRegistry
        [{ visibility := .Public, name := "field_1",
           type_ := SType.Raw ⟨["i32"]⟩, address := none },
         { visibility := .Public, name := "field_2",
           type_ := SType.Raw ⟨["u64"]⟩, address := some 8 }]
        {} =
      .ok ([Region.field .Public "field_1" (SType.Raw ⟨["i32"]⟩),
            Region.field .Private "_field_4" (unknownType 4),
            Region.field .Public "field_2" (SType.Raw ⟨["u64"]⟩)], 16, 8)
    ∧ (8 : Nat) = max 4 8
    ∧ resolveStructLayout testRegistry
        [{ visibility := .Public, name := "max_num_1",
           type_ := SType.Raw ⟨["u16"]⟩, address := some 0x78 },
         { visibility := .Public, name := "max_num_2",
           type_ := SType.Raw ⟨["u16"]⟩, address := none },
         { visibility := .Public, name := "test_type",
           type_ := SType.Raw ⟨["test", "TestType"]⟩, address := some 0xA00 },
         { visibility := .Public, name := "settings",
           type_ := unknownType 804, address := none }]
        { size := some 0x1750 } =
      .ok ([Region.field .Private "_field_0" (unknownType 0x78),
            Region.field .Public "max_num_1" (SType.Raw ⟨["u16"]⟩),
            Region.field .Public "max_num_2" (SType.Raw ⟨["u16"]⟩),
            Region.field .Private "_field_7c" (unknownType 0x984),
            Region.field .Public "test_type" (SType.Raw ⟨["test", "TestType"]⟩),
            Region.field .Public "settings" (unknownType 804),
            Region.field .Private "_field_d2c" (unknownType 0xA24)],
        0x1750, 4) :=
  ⟨rfl, rfl, rfl, rfl⟩

/-- An enum variant declaration: name, optional explicit discriminant
expression, and whether it carries the `default` attribute. -/
structure EnumFieldDecl where
  name : String
  value : Option Int
  isDefault : Bool
deriving DecidableEq, Repr

/-- An enum declaration as seen by the resolver: its path (used in error
messages), backing type, variants, and attributes. -/
structure EnumDecl where
  path : ItemPath
  backing : SType
  fields : List EnumFieldDecl
  defaultableAttr : Bool
  singleton : Option Nat
  copyable : Bool
  cloneable : Bool
deriving Repr

/-- The index of the first variant carrying the `default` attribute. -/
def enumDefaultIndex (fields : List EnumFieldDecl) : Option Nat :=
  fields.findIdx? (fun f => f.isDefault)

/-- Modelled from the spec (§4.4, enum resolution; the resolving code lives
in the absent `semantic_state.rs`) and the error messages fixed by the test
`can_handle_defaultable_on_enum_with_default_field`: validate the
defaultable/default-index pairing (failing in either mismatch direction),
validate name uniqueness, and assign discriminants. -/
def resolveEnumDef (d : EnumDecl) : Except String EnumDefinition :=
  if d.defaultableAttr && (enumDefaultIndex d.fields).isNone then
    .error ("enum `" ++ d.path.display
      ++ "` is marked as defaultable but has no default variant set")
  else if !d.defaultableAttr && (enumDefaultIndex d.fields).isSome then
    .error ("enum `" ++ d.path.display
      ++ "` has a default variant set but is not marked as defaultable")
  else if !((d.fields.map (fun f => f.name)).dedup.length ==
      (d.fields.map (fun f => f.name)).length) then
    .error ("enum `" ++ d.path.display ++ "` has duplicate field names")
  else
    .ok { type_ := d.backing,
          fields := resolveEnumFields (d.fields.map (fun f => (f.name, f.value))),
          singleton := d.singleton, copyable := d.copyable,
          cloneable := d.cloneable, defaultable := d.defaultableAttr,
          default_index := enumDefaultIndex d.fields }

/-- C9: enum defaultable validation.  (i) A `defaultable` enum with no
`default` variant fails with the exact message the tests fix; (ii) a
`default` variant on an enum not marked `defaultable` fails likewise;
(iii) hence every successfully resolved enum satisfies
defaultable ⟺ a default index is set; and (iv) per
`ItemDefinitionInner::defaultable` (`types.rs` lines 229-235) an enum
counts as a defaultable field type only when both are set. -/
theorem c9_enum_defaultable_validation :
    (∀ d : EnumDecl, d.defaultableAttr = true →
        enumDefaultIndex d.fields = none →
        resolveEnumDef d = .error ("enum `" ++ d.path.display
          ++ "` is marked as defaultable but has no default variant set"))
    ∧ (∀ (d : EnumDecl) (i : Nat), d.defaultableAttr = false →
        enumDefaultIndex d.fields = some i →
        resolveEnumDef d = .error ("enum `" ++ d.path.display
          ++ "` has a default variant set but is not marked as defaultable"))
    ∧ (∀ (d : EnumDecl) (ed : EnumDefinition), resolveEnumDef d = .ok ed →
        (ed.defaultable = true ↔ ed.default_index.isSome = true))
    ∧ (∀ ed : EnumDefinition,
        ItemDefinitionInner.defaultable (.EnumDef ed) =
          (ed.defaultable && ed.default_index.isSome)) := by
  refine ⟨?nodef, ?nodefaultable, ?resolved, fun ed => rfl⟩
  case nodef =>
    intro d hattr hidx
    unfold resolveEnumDef
    rw [hidx, hattr]
    rfl
  case nodefaultable =>
    intro d i hattr hidx
    unfold resolveEnumDef
    rw [hidx, hattr]
    rfl
  case resolved =>
    intro d ed h
    unfold resolveEnumDef at h
    split at h
    · exact Except.noConfusion h
    · split at h
      · exact Except.noConfusion h
      · split at h
        · exact Except.noConfusion h
        · injection h with h
          rw [← h]
          rename_i h1 h2 h3
          show d.defaultableAttr = true ↔ (enumDefaultIndex d.fields).isSome = true
          cases hA : d.defaultableAttr <;> cases hI : enumDefaultIndex d.fields
          · simp
          · rw [hA, hI] at h2
            simp at h2
          · rw [hA, hI] at h1
            simp at h1
          · simp

/-- C9 witness: the defaultable-without-default failure evaluated on the
enum of `can_handle_defaultable_on_enum_with_default_field`. -/
theorem c9_enum_defaultable_validation_witness :
    resolveEnumDef
      { path := ⟨["test", "TestType"]⟩, backing := SType.Raw ⟨["u32"]⟩,
        fields := [{ name := "Item1", value := none, isDefault := false },
          { name := "Item2", value := none, isDefault := false }],
        defaultableAttr := true, singleton := none, copyable := false,
        cloneable := false } =
      .error "enum `test::TestType` is marked as defaultable but has no default variant set" :=
  c9_enum_defaultable_validation.1 _ rfl rfl

/-- Modelled from the spec (§4.4; `SemanticState::build` lives in the
absent `semantic_state.rs`): one item of the fixed-point worklist — its
fully-qualified path and the paths its body references.  An attempt to
resolve the item succeeds exactly when every referenced path is already
known (Predefined, Extern, or previously Resolved). -/
structure BuildItem where
  path : ItemPath
  deps : List ItemPath
deriving DecidableEq, Repr

/-- Whether an item's resolution attempt succeeds against the currently
known (resolved) paths. -/
def readyItem (known : List ItemPath) (it : BuildItem) : Bool :=
  it.deps.all (fun d => known.contains d)

/-- The non-termination error message fixed by the spec (§4.4) and the test
`will_eventually_terminate_with_an_unknown_type`: the stuck paths and the
paths resolved so far, each quoted, in bracketed lists. -/
def stuckMessage (stuck resolved : List ItemPath) : String :=
  "type resolution will not terminate, failed on types: ["
    ++ String.intercalate ", " (stuck.map (fun p => "\"" ++ p.display ++ "\""))
    ++ "] (resolved types: ["
    ++ String.intercalate ", "
        (resolved.map (fun p => "\"" ++ p.display ++ "\""))
    ++ "])"

/-- Modelled from the spec (§4.4): the fixed-point iteration.  Each pass
resolves every still-pending item whose references are all known; a pass
that resolves nothing while items remain pending fails with the
non-termination message.  The fuel argument only bounds the recursion — the
driver passes enough fuel that it is never exhausted, since every recursive
pass strictly shrinks the pending list. -/
def buildLoop :
    Nat → List ItemPath → List ItemPath → List BuildItem →
    Except String (List ItemPath)
  | 0, _, _, _ => .error "out of fuel"
  | fuel + 1, known, resolvedOrder, pending =>
    if (pending.filter (readyItem known)).isEmpty then
      if pending.isEmpty then .ok resolvedOrder
      else .error (stuckMessage (pending.map (fun it => it.path)) resolvedOrder)
    else
      buildLoop fuel
        (known ++ (pending.filter (readyItem known)).map (fun it => it.path))
        (resolvedOrder ++ (pending.filter (readyItem known)).map
          (fun it => it.path))
        (pending.filter (fun it => !readyItem known it))

/-- Modelled from the spec (§4.3/§4.4): `build()` — run the fixed-point
loop over the registry's unresolved items, starting from the predefined
entries seeded at construction, with no item resolved yet. -/
def semanticBuild (predef : List ItemPath) (items : List BuildItem) :
    Except String (List ItemPath) :=
  buildLoop (items.length + 1) predef [] items

/-- The paths of the predefined primitive types seeded into the registry at
construction. -/
def primitivePaths : List ItemPath :=
  [⟨["u8"]⟩, ⟨["u16"]⟩, ⟨["u32"]⟩, ⟨["u64"]⟩, ⟨["i32"]⟩, ⟨["f32"]⟩]

/-- C1: non-termination detection.  (i) Whenever a pass of the fixed-point
loop resolves zero items while at least one remains pending, the loop fails
with exactly the message
`type resolution will not terminate, failed on types: [<stuck>] (resolved
types: [<resolved>])`.  (ii) On the module of
`will_eventually_terminate_with_an_unknown_type` — a single struct
`test::TestType2` whose field references the undeclared `TestType1` —
`build` fails listing that struct's fully-qualified path as the sole stuck
item and an empty resolved list. -/
theorem c1_nontermination_error :
    (∀ (fuel : Nat) (known resolvedOrder : List ItemPath)
        (pending : List BuildItem),
        pending.filter (readyItem known) = [] → pending ≠ [] →
        buildLoop (fuel + 1) known resolvedOrder pending =
          .error (stuckMessage (pending.map (fun it => it.path)) resolvedOrder))
    ∧ semanticBuild primitivePaths
        [{ path := ⟨["test", "TestType2"]⟩,
           deps := [⟨["test", "TestType1"]⟩] }] =
        .error "type resolution will not terminate, failed on types: [\"test::TestType2\"] (resolved types: [])" := by
  constructor
  · intro fuel known resolvedOrder pending hready hne
    cases pending with
    | nil => exact absurd rfl hne
    | cons a t =>
      simp only [buildLoop, hready]
      rfl
  · rfl

/-- C1 witness: the no-progress law applied to the concrete stuck module of
the termination test. -/
theorem c1_nontermination_error_witness :
    buildLoop 1 primitivePaths []
      [{ path := ⟨["test", "TestType2"]⟩,
         deps := [⟨["test", "TestType1"]⟩] }] =
      .error (stuckMessage [⟨["test", "TestType2"]⟩] []) :=
  c1_nontermination_error.1 0 primitivePaths []
    [{ path := ⟨["test", "TestType2"]⟩, deps := [⟨["test", "TestType1"]⟩] }]
    rfl (by decide)

/-- C3 witness: slot pinning and placeholder synthesis evaluated on the
indexed-vftable test input. -/
theorem c3_vftable_slot_assignment_witness :
    (vftableFunctionList vfIndexedDecls (some 8))[2]? = some vfTestFunction0
    ∧ (vftableFunctionList vfIndexedDecls (some 8))[0]? = some (makeVfunc 0) :=
  ⟨c3_vftable_slot_assignment.1 vfIndexedDecls (some 8)
      ⟨vfTestFunction0, some 2⟩ 2 (by decide)
      (by unfold vfIndexedDecls; exact List.mem_cons_self _ _) rfl,
   c3_vftable_slot_assignment.2.2.1 vfIndexedDecls (some 8) 0 (by decide)
      (by decide)⟩

end Pyxis
